import Mathlib

/-
Verification of the retained-material reporting pipeline (GeradorRelatorio.py).

The Python source is shallowly embedded below: raw spreadsheet cells become the
`RawVal` type, pandas tables become lists of records, `groupby(...).sum()` becomes
a sorted-distinct-keys fiber-sum (`aggBy`), `merge(..., how='left').fillna(0)`
becomes a keyed lookup with default 0, and `sort_values` becomes `List.insertionSort`
(pandas multi-column sort_values uses a stable lexsort).  Machine floats are
idealised as rationals; the one place where IEEE division by zero is observable
(the unguarded `% Realizado` column) is modelled explicitly by the `PFloat` type
with `inf` / `ninf` / `nan` constructors.
-/

/-- A raw spreadsheet cell: null (`None`), a float NaN, an int, a float, or a string. -/
inductive RawVal where
  | null
  | nan
  | int (z : ℤ)
  | float (q : ℚ)
  | str (s : String)
deriving DecidableEq

/-- `pd.isna` on a scalar cell: true for `None` and NaN. -/
def pdIsna : RawVal → Bool
  | .null => true
  | .nan => true
  | _ => false

/-- Decimal digits of the fractional part of a rational in `[0,1)`, with fuel
(17 digits covers every double-precision value the source can hold). -/
def fracDigitsChars : ℚ → ℕ → List Char
  | _, 0 => []
  | q, n + 1 =>
    if q = 0 then []
    else
      let d : ℤ := ⌊q * 10⌋
      Char.ofNat (48 + d.toNat) :: fracDigitsChars (q * 10 - (d : ℚ)) n

/-- Rendering of a float value, as Python `str` renders it: sign, integer part,
a dot, then the fractional digits (`10.0`, `-3.25`, ...). -/
def floatRepr (q : ℚ) : String :=
  let i : ℤ := ⌊|q|⌋
  let f : ℚ := |q| - (i : ℚ)
  (if q < 0 then "-" else "") ++ toString i ++ "." ++
    (if f = 0 then "0" else (fracDigitsChars f 17).asString)

/-- Python `str()` on a raw cell. -/
def pyStr : RawVal → String
  | .null => "None"
  | .nan => "nan"
  | .int z => toString z
  | .float q => floatRepr q
  | .str s => s

/-- Numeric value of a run of decimal digit characters (Python `int` on the digits). -/
def digitsVal (cs : List Char) : ℕ :=
  cs.foldl (fun a c => a * 10 + (c.toNat - 48)) 0

/-- First maximal run of decimal digits in a character list (first match of
the regex for one-or-more digits). -/
def firstDigitRunChars : List Char → Option (List Char)
  | [] => none
  | c :: cs =>
    if c.isDigit then some (c :: cs.takeWhile Char.isDigit)
    else firstDigitRunChars cs

/-- `re.findall` for a digit run, taking the first match and converting to a number. -/
def firstDigitRun (s : String) : Option ℕ :=
  (firstDigitRunChars s.toList).map digitsVal

/-- `mapear_linha` (source lines 28-41): stringify the identifier, take the first
run of digits; 10/11 map to "Linha 4 e 5", 12/13 to "Linha 6", everything else
(including no digits at all) to "Outros". -/
def mapearLinha (forno : RawVal) : String :=
  match firstDigitRun (pyStr forno) with
  | none => "Outros"
  | some n =>
    if n = 10 ∨ n = 11 then "Linha 4 e 5"
    else if n = 12 ∨ n = 13 then "Linha 6"
    else "Outros"

/-- Python `str.strip`: drop leading and trailing whitespace. -/
def pyStrip (s : String) : String :=
  (((s.toList.dropWhile Char.isWhitespace).reverse.dropWhile Char.isWhitespace).reverse).asString

/-- Python `str.lower` (character-wise lowering). -/
def pyLower (s : String) : String :=
  (s.toList.map Char.toLower).asString

/-- Python `str.replace("R$", "")`: remove every (left-to-right, non-overlapping)
occurrence of the two-character currency marker. -/
def removeRS : List Char → List Char
  | 'R' :: '$' :: rest => removeRS rest
  | c :: rest => c :: removeRS rest
  | [] => []

/-- The string-cleaning chain of `limpar_numero` (source lines 47-48):
`str(val).strip().replace('R$', '').replace(' ', '')` then
`.replace('.', '').replace(',', '.')`. -/
def limparStr (s : String) : String :=
  let cs := (removeRS (pyStrip s).toList).filter (fun c => decide (c ≠ ' '))
  ((cs.filter (fun c => decide (c ≠ '.'))).map (fun c => if c = ',' then '.' else c)).asString

/-- Digit-level reading of Python `float(string)`: optional sign, digits, at most
one dot, at least one digit overall; returns the signed mantissa and the number
of fractional digits.  (Exponent, underscore and inf/nan spellings are outside
the shapes the cleaning step can produce and are not modelled.) -/
def parsePyFloatRaw (s : String) : Option (ℤ × ℕ) :=
  let cs := s.toList
  let signAndRest : ℤ × List Char :=
    match cs with
    | '-' :: r => (-1, r)
    | '+' :: r => (1, r)
    | _ => (1, cs)
  let sign := signAndRest.1
  let body := signAndRest.2
  let ip := body.takeWhile Char.isDigit
  let rest := body.dropWhile Char.isDigit
  match rest with
  | [] => if ip.isEmpty then none else some (sign * (digitsVal ip : ℤ), 0)
  | '.' :: fp =>
    if fp.all Char.isDigit && !(ip.isEmpty && fp.isEmpty) then
      some (sign * ((digitsVal ip : ℤ) * (10 : ℤ) ^ fp.length + (digitsVal fp : ℤ)), fp.length)
    else none
  | _ => none

/-- Model of Python `float(string)`: the parsed rational value, or failure. -/
def parsePyFloat (s : String) : Option ℚ :=
  (parsePyFloatRaw s).map (fun p => (p.1 : ℚ) / (10 : ℚ) ^ p.2)

/-- `limpar_numero` (source lines 43-50): null/NaN give 0.0, numbers pass through
as floats, strings are cleaned by `limparStr` and parsed; a failed parse gives 0.0. -/
def limparNumero : RawVal → ℚ
  | .null => 0
  | .nan => 0
  | .int z => (z : ℚ)
  | .float q => q
  | .str s => (parsePyFloat (limparStr s)).getD 0

/-- Does `pat` occur as a leading block of `s`? -/
def leadsWith : List Char → List Char → Bool
  | [], _ => true
  | _ :: _, [] => false
  | a :: as, b :: bs => a == b && leadsWith as bs

/-- Python's `in` on strings, over character lists. -/
def containsChars : List Char → List Char → Bool
  | pat, [] => pat.isEmpty
  | pat, c :: rest => leadsWith pat (c :: rest) || containsChars pat rest

/-- Python `kw in col` substring test. -/
def strContains (s pat : String) : Bool :=
  containsChars pat.toList s.toList

/-- Lower-cased, stripped form of a column name, as `identificar_coluna` computes it. -/
def normalizeCol (s : String) : String := pyLower (pyStrip s)

/-- The `mapa_cols` dict of `identificar_coluna` (lower-stripped name to original
name).  A Python dict comprehension keeps the LAST binding for a repeated key,
so the lookup scans the columns from the right. -/
def mapaCols (cols : List String) (c : String) : Option String :=
  cols.reverse.find? (fun o => decide (normalizeCol o = c))

/-- `identificar_coluna` (source lines 59-72): for each keyword in order, for each
lower-stripped column name in table order, if the keyword occurs in the column
name return the original name recorded in `mapa_cols`. -/
def identificarColuna (cols keywords : List String) : Option String :=
  let colunasDf := cols.map normalizeCol
  keywords.findSome? (fun kw =>
    (colunasDf.find? (fun col => strContains col kw)).bind (mapaCols cols))

/-- Modelled from the spec (section 4.2 wording, for comparison with the code):
case-insensitive, whitespace-trimmed substring comparison of fragments against
column names, fragments in priority order, and within a fragment the first
column in table order wins. -/
def resolveColumnSpec (cols keywords : List String) : Option String :=
  keywords.findSome? (fun kw =>
    cols.find? (fun c => strContains (normalizeCol c) (normalizeCol kw)))

/-- A float value as it can appear in the `% Realizado` column: a finite value,
or one of the IEEE division-by-zero results the unguarded pandas division
`(M2_Retido / M2_Produzido) * 100` can produce. -/
inductive PFloat where
  | val (q : ℚ)
  | inf
  | ninf
  | nan
deriving DecidableEq

/-- `(ret / prod) * 100` with IEEE semantics: dividing a nonzero value by zero
gives a signed infinity, `0/0` gives NaN, and multiplying by 100 keeps them. -/
def pctDiv (ret prod : ℚ) : PFloat :=
  if prod = 0 then
    (if ret = 0 then .nan else if ret > 0 then .inf else .ninf)
  else .val (ret / prod * 100)

/-- A processed production row (columns `Linha`, `Equipe`, `metragem_real`),
also reused for the `(Linha, Equipe)`-aggregated rows of either table. -/
structure PRow where
  linha : String
  equipe : String
  qty : ℚ
deriving DecidableEq

/-- A processed retained-material row
(columns `Linha`, `Equipe`, `m2_real`, and the raw reason). -/
structure RRow where
  linha : String
  equipe : String
  qty : ℚ
  motivo : String
deriving DecidableEq

/-- Lexicographic order on `(Linha, Equipe)` keys, the order in which
`groupby(['Linha', 'Equipe'])` emits its groups. -/
def keyLe (a b : String × String) : Prop :=
  a.1 < b.1 ∨ (a.1 = b.1 ∧ a.2 ≤ b.2)

instance : DecidableRel keyLe := fun a b => by
  unfold keyLe
  infer_instance

/-- `groupby(key)[val].sum()` over a list of records: the distinct keys in
ascending order, each paired with the sum of `val` over its group. -/
def aggBy {α K M : Type} [DecidableEq K] [AddCommMonoid M]
    (le : K → K → Prop) [DecidableRel le] (key : α → K) (val : α → M)
    (rows : List α) : List (K × M) :=
  (List.insertionSort le ((rows.map key).dedup)).map
    (fun k => (k, ((rows.filter (fun r => decide (key r = k))).map val).sum))

/-- `prod_agg` (source line 289): production rows grouped by `(Linha, Equipe)`
with `metragem_real` summed. -/
def prodAgg (rows : List PRow) : List PRow :=
  (aggBy keyLe (fun r => (r.linha, r.equipe)) (fun r => r.qty) rows).map
    (fun x => ⟨x.1.1, x.1.2, x.2⟩)

/-- `ret_agg` (source line 290): retained rows grouped by `(Linha, Equipe)`
with `m2_real` summed. -/
def retAgg (rows : List RRow) : List PRow :=
  (aggBy keyLe (fun r => (r.linha, r.equipe)) (fun r => r.qty) rows).map
    (fun x => ⟨x.1.1, x.1.2, x.2⟩)

/-- A row of `df_final` / `df_tabela_final`. -/
structure FinalRow where
  linha : String
  equipe : String
  m2Produzido : ℚ
  m2Retido : ℚ
  metaM2 : ℚ
  saldoM2 : ℚ
  pctRealizado : PFloat
deriving DecidableEq

/-- `df_final` (source lines 291-295): left-join the retained aggregate onto the
production aggregate on `(Linha, Equipe)`, fill missing retained quantities with
0, then derive `Meta_M2`, `Saldo_M2` and the unguarded `% Realizado` column. -/
def dfFinal (pAgg rAgg : List PRow) (metaPct : ℚ) : List FinalRow :=
  pAgg.map (fun p =>
    let ret := (((rAgg.find? (fun r => decide (r.linha = p.linha ∧ r.equipe = p.equipe))).map
      (fun r => r.qty)).getD 0)
    { linha := p.linha, equipe := p.equipe, m2Produzido := p.qty, m2Retido := ret,
      metaM2 := p.qty * (metaPct / 100), saldoM2 := p.qty * (metaPct / 100) - ret,
      pctRealizado := pctDiv ret p.qty })

/-- The `Ordem` sort key of `adicionar_linha_geral` (source line 107). -/
def ordem (r : FinalRow) : ℕ :=
  if r.equipe = "Média Geral" then 1 else 0

/-- The `sort_values(by=['Ordem', 'Equipe'])` order (source line 108). -/
def rowLe (a b : FinalRow) : Prop :=
  ordem a < ordem b ∨ (ordem a = ordem b ∧ a.equipe ≤ b.equipe)

instance : DecidableRel rowLe := fun a b => by
  unfold rowLe
  infer_instance

instance : IsTotal FinalRow rowLe :=
  ⟨fun a b => by
    unfold rowLe
    rcases lt_trichotomy (ordem a) (ordem b) with h | h | h
    · exact Or.inl (Or.inl h)
    · rcases le_total a.equipe b.equipe with he | he
      · exact Or.inl (Or.inr ⟨h, he⟩)
      · exact Or.inr (Or.inr ⟨h.symm, he⟩)
    · exact Or.inr (Or.inl h)⟩

instance : IsTrans FinalRow rowLe :=
  ⟨fun a b c hab hbc => by
    unfold rowLe at hab hbc ⊢
    rcases hab with h1 | ⟨h1, h1'⟩ <;> rcases hbc with h2 | ⟨h2, h2'⟩
    · exact Or.inl (h1.trans h2)
    · exact Or.inl (h2 ▸ h1)
    · exact Or.inl (h1 ▸ h2)
    · exact Or.inr ⟨h1.trans h2, h1'.trans h2'⟩⟩

/-- The synthetic "Média Geral" row of `adicionar_linha_geral`
(source lines 93-103): totals summed over the line's filtered rows and the
percentage recomputed from those totals, guarded against a zero denominator. -/
def rowGeral (filt : List FinalRow) (nomeLinha : String) (metaPct : ℚ) : FinalRow :=
  let totalProd := (filt.map (fun r => r.m2Produzido)).sum
  let totalRet := (filt.map (fun r => r.m2Retido)).sum
  let metaM2Total := totalProd * (metaPct / 100)
  { linha := nomeLinha, equipe := "Média Geral",
    m2Produzido := totalProd, m2Retido := totalRet,
    metaM2 := metaM2Total, saldoM2 := metaM2Total - totalRet,
    pctRealizado := .val (if totalProd > 0 then totalRet / totalProd * 100 else 0) }

/-- `adicionar_linha_geral` (source lines 89-109): filter `df_final` to one line,
return it unchanged when empty, otherwise append the synthetic overall row and
sort by `(Ordem, Equipe)`. -/
def adicionarLinhaGeral (df : List FinalRow) (nomeLinha : String) (metaPct : ℚ) :
    List FinalRow :=
  let filt := df.filter (fun r => decide (r.linha = nomeLinha))
  if filt.isEmpty then filt
  else List.insertionSort rowLe (filt ++ [rowGeral filt nomeLinha metaPct])

/-- `df_tabela_final` (source lines 297-304): the two per-line tables concatenated. -/
def dfTabelaFinal (df : List FinalRow) (metaPct : ℚ) : List FinalRow :=
  adicionarLinhaGeral df "Linha 4 e 5" metaPct ++ adicionarLinhaGeral df "Linha 6" metaPct

/-- `df_ret_filtrado` (source line 261): drop the rows whose raw reason is in the
exclusion list (with an empty list the table is copied unchanged, which the
filter also models). -/
def dfRetFiltrado (ret : List RRow) (excl : List String) : List RRow :=
  ret.filter (fun r => decide (r.motivo ∉ excl))

/-- `df_spec` (source line 401): the reason drill-down rows, taken from the
UNFILTERED retained table `df_ret`. -/
def dfSpec (ret : List RRow) (alvo : String) : List RRow :=
  ret.filter (fun r => decide (r.motivo = alvo))

/-- `spec_agg` (source line 404): drill-down metres grouped by team. -/
def specAgg (ret : List RRow) (alvo : String) : List (String × ℚ) :=
  aggBy (fun a b : String => a ≤ b) (fun r => r.equipe) (fun r => r.qty) (dfSpec ret alvo)

/-- `spec_count` (source line 405): drill-down occurrence counts grouped by team. -/
def specCount (ret : List RRow) (alvo : String) : List (String × ℕ) :=
  aggBy (fun a b : String => a ≤ b) (fun r => r.equipe) (fun _ => 1) (dfSpec ret alvo)

/-- `todas_equipes` (source line 402): the sorted distinct team names of the
production table. -/
def todasEquipes (pRows : List PRow) : List String :=
  List.insertionSort (fun a b : String => a ≤ b) ((pRows.map (fun r => r.equipe)).dedup)

/-- `spec_final` (source lines 406-407): left-join the drill-down sums and counts
onto the production team list, filling missing entries with 0. -/
def specFinal (pRows : List PRow) (ret : List RRow) (alvo : String) :
    List (String × ℚ × ℕ) :=
  (todasEquipes pRows).map (fun e =>
    (e, (((specAgg ret alvo).find? (fun p => decide (p.1 = e))).map (fun p => p.2)).getD 0,
        (((specCount ret alvo).find? (fun p => decide (p.1 = e))).map (fun p => p.2)).getD 0))

/-- A raw uploaded table: its column-name header and its rows (each row looks
cells up by original column name). -/
structure RawTable where
  cols : List String
  rows : List (String → RawVal)

/-- `erros_mapeamento` (source lines 195-217): one message per unresolved
required column, production table first, in source order. -/
def errosMapeamento (prodCols retCols : List String) : List String :=
  (if (identificarColuna prodCols ["equipe", "team", "turno"]).isSome then []
   else ["Arquivo Produção: Coluna de 'Equipe' não encontrada."])
  ++ ((if (identificarColuna prodCols ["forno", "linha", "maq"]).isSome then []
      else ["Arquivo Produção: Coluna de 'Forno' ou 'Linha' não encontrada."])
  ++ ((if (identificarColuna prodCols ["metragem", "m2", "prod"]).isSome then []
      else ["Arquivo Produção: Coluna de 'Metragem' ou 'Produção' não encontrada."])
  ++ ((if (identificarColuna retCols ["motivo", "defeito", "causa"]).isSome then []
      else ["Arquivo Retidos: Coluna de 'Motivo' não encontrada."])
  ++ ((if (identificarColuna retCols ["m²", "m2", "metragem", "quant"]).isSome then []
      else ["Arquivo Retidos: Coluna de 'M2' ou 'Metragem' não encontrada."])
  ++ ((if (identificarColuna retCols ["equipe", "team", "turno"]).isSome then []
      else ["Arquivo Retidos: Coluna de 'Equipe' não encontrada."])
  ++ (if (identificarColuna retCols ["forno", "linha", "maq"]).isSome then []
      else ["Arquivo Retidos: Coluna de 'Forno' ou 'Linha' não encontrada."]))))))

/-- The main session pipeline (source lines 195-304): resolve the required
columns of both tables; when any is missing, stop with the full batch of
errors (`st.stop`, line 225) and produce no aggregate; otherwise normalise both
tables, apply the reason exclusion, aggregate, left-join and build the final
summary table.  Cells used as group keys are taken via their string form. -/
def processar (prod ret : RawTable) (metaPct : ℚ) (excl : List String) :
    Except (List String) (List FinalRow) :=
  let errs := errosMapeamento prod.cols ret.cols
  if errs.isEmpty then
    let colEquipeP := (identificarColuna prod.cols ["equipe", "team", "turno"]).getD ""
    let colFornoP := (identificarColuna prod.cols ["forno", "linha", "maq"]).getD ""
    let colMetragem := (identificarColuna prod.cols ["metragem", "m2", "prod"]).getD ""
    let colMotivo := (identificarColuna ret.cols ["motivo", "defeito", "causa"]).getD ""
    let colM2 := (identificarColuna ret.cols ["m²", "m2", "metragem", "quant"]).getD ""
    let colEquipeR := (identificarColuna ret.cols ["equipe", "team", "turno"]).getD ""
    let colFornoR := (identificarColuna ret.cols ["forno", "linha", "maq"]).getD ""
    let pRows : List PRow := prod.rows.map (fun row =>
      ⟨mapearLinha (row colFornoP), pyStr (row colEquipeP), limparNumero (row colMetragem)⟩)
    let rRowsAll : List RRow := ret.rows.map (fun row =>
      ⟨mapearLinha (row colFornoR), pyStr (row colEquipeR), limparNumero (row colM2),
        pyStr (row colMotivo)⟩)
    let rRows := dfRetFiltrado rRowsAll excl
    Except.ok (dfTabelaFinal (dfFinal (prodAgg pRows) (retAgg rRows) metaPct) metaPct)
  else Except.error errs

/-- Numeric in the pandas sense: an int, a float, or a float NaN. -/
def isNumericRV : RawVal → Prop
  | .int _ => True
  | .float _ => True
  | .nan => True
  | _ => False

/-- Counterexample table for C3: a real team literally named "Média Geral". -/
def cdf3 : List FinalRow :=
  [⟨"Linha 6", "Zebra", 100, 1, 1, 0, .val 1⟩,
   ⟨"Linha 6", "Média Geral", 200, 2, 2, 0, .val 1⟩]

/-- Witness table for C3: two ordinary teams on one line. -/
def wdf3 : List FinalRow :=
  [⟨"Linha 6", "B", 100, 1, 1, 0, .val 1⟩,
   ⟨"Linha 6", "A", 200, 2, 2, 0, .val 1⟩]

section ListHelpers

variable {α K M : Type}

lemma sum_map_add [AddCommMonoid M] (l : List α) (f g : α → M) :
    (l.map (fun x => f x + g x)).sum = (l.map f).sum + (l.map g).sum := by
  induction l with
  | nil => simp
  | cons a t ih => simp only [List.map_cons, List.sum_cons, ih, add_add_add_comm]

lemma sum_ite_eq_mem [DecidableEq K] [AddCommMonoid M] (ks : List K) (hks : ks.Nodup)
    (k : K) (m : M) :
    (ks.map (fun x => if k = x then m else 0)).sum = if k ∈ ks then m else 0 := by
  induction ks with
  | nil => simp
  | cons a t ih =>
    rcases List.nodup_cons.mp hks with ⟨ha, ht⟩
    by_cases h : k = a
    · subst h
      have hz : ∀ x ∈ t, (if k = x then m else 0) = 0 := by
        intro x hx
        have : k ≠ x := fun hkx => ha (hkx ▸ hx)
        simp [this]
      simp [List.map_congr_left hz]
    · simp [h, ih ht, Ne.symm h]

lemma sum_fiber [DecidableEq K] [AddCommMonoid M] (rows : List α) (key : α → K) (g : α → M)
    (ks : List K) (hks : ks.Nodup) :
    (ks.map (fun k => ((rows.filter (fun r => decide (key r = k))).map g).sum)).sum
      = ((rows.filter (fun r => decide (key r ∈ ks))).map g).sum := by
  induction rows with
  | nil => simp
  | cons r t ih =>
    have h1 : ∀ k ∈ ks,
        ((List.filter (fun x => decide (key x = k)) (r :: t)).map g).sum
          = (if key r = k then g r else 0)
            + ((t.filter (fun x => decide (key x = k))).map g).sum := by
      intro k _
      by_cases h : key r = k <;> simp [List.filter_cons, h]
    rw [List.map_congr_left h1, sum_map_add, sum_ite_eq_mem ks hks, ih]
    by_cases h : key r ∈ ks <;> simp [List.filter_cons, h]

lemma sum_filter_split [AddCommMonoid M] (l : List α) (p q : α → Bool) (g : α → M) :
    ((l.filter p).map g).sum
      = ((l.filter (fun a => p a && q a)).map g).sum
        + ((l.filter (fun a => p a && !q a)).map g).sum := by
  induction l with
  | nil => simp
  | cons a t ih =>
    by_cases hp : p a = true
    · by_cases hq : q a = true
      · simp [List.filter_cons, hp, hq, ih, add_assoc]
      · simp [List.filter_cons, hp, hq, ih, add_left_comm]
    · simp [List.filter_cons, hp, ih]

lemma sum_map_one (l : List α) : (l.map (fun _ => (1 : ℕ))).sum = l.length := by
  induction l with
  | nil => rfl
  | cons a t ih => simp [ih, Nat.add_comm]

lemma find?_eq_self [DecidableEq K] (ks : List K) (k : K) :
    ks.find? (fun x => decide (x = k)) = if k ∈ ks then some k else none := by
  induction ks with
  | nil => simp
  | cons a t ih =>
    by_cases h : a = k
    · subst h
      simp
    · rw [List.find?_cons_of_neg _ (by simp [h]), ih]
      by_cases hm : k ∈ t <;> simp [hm, h, Ne.symm h]

lemma nodup_map_inj [DecidableEq K] (f : α → K) (l : List α)
    (hnd : (l.map f).Nodup) :
    ∀ a ∈ l, ∀ b ∈ l, f a = f b → a = b := by
  induction l with
  | nil => simp
  | cons x t ih =>
    simp only [List.map_cons, List.nodup_cons] at hnd
    intro a ha b hb hfab
    rcases List.mem_cons.mp ha with rfl | ha' <;> rcases List.mem_cons.mp hb with rfl | hb'
    · rfl
    · exact absurd (hfab ▸ List.mem_map_of_mem f hb') hnd.1
    · exact absurd (hfab ▸ List.mem_map_of_mem f ha') hnd.1
    · exact ih hnd.2 a ha' b hb' hfab

end ListHelpers

section AggHelpers

variable {α K M : Type}

lemma aggBy_find? [DecidableEq K] [AddCommMonoid M] (le : K → K → Prop) [DecidableRel le]
    (key : α → K) (val : α → M) (rows : List α) (k : K) :
    (aggBy le key val rows).find? (fun p => decide (p.1 = k))
      = if k ∈ rows.map key
        then some (k, ((rows.filter (fun r => decide (key r = k))).map val).sum)
        else none := by
  unfold aggBy
  rw [List.find?_map]
  have hfun : ((fun p : K × M => decide (p.1 = k)) ∘
      (fun x => (x, ((rows.filter (fun r => decide (key r = x))).map val).sum)))
        = fun x : K => decide (x = k) := rfl
  rw [hfun, find?_eq_self]
  have hmem : k ∈ List.insertionSort le ((rows.map key).dedup) ↔ k ∈ rows.map key := by
    rw [(List.perm_insertionSort le _).mem_iff, List.mem_dedup]
  by_cases h : k ∈ rows.map key
  · rw [if_pos (hmem.mpr h), if_pos h]
    rfl
  · rw [if_neg (fun hc => h (hmem.mp hc)), if_neg h]
    rfl

lemma aggBy_lookup [DecidableEq K] [AddCommMonoid M] (le : K → K → Prop) [DecidableRel le]
    (key : α → K) (val : α → M) (rows : List α) (k : K) :
    (((aggBy le key val rows).find? (fun p => decide (p.1 = k))).map (fun p => p.2)).getD 0
      = ((rows.filter (fun r => decide (key r = k))).map val).sum := by
  rw [aggBy_find?]
  by_cases h : k ∈ rows.map key
  · simp [h]
  · have hnil : rows.filter (fun r => decide (key r = k)) = [] := by
      rw [List.filter_eq_nil_iff]
      intro a ha
      simp only [decide_eq_true_eq]
      exact fun hk => h (hk ▸ List.mem_map_of_mem key ha)
    simp [h, hnil]

end AggHelpers

section PipelineHelpers

lemma prodAgg_map_key (pRows : List PRow) :
    (prodAgg pRows).map (fun p => (p.linha, p.equipe))
      = List.insertionSort keyLe ((pRows.map (fun r => (r.linha, r.equipe))).dedup) := by
  unfold prodAgg aggBy
  rw [List.map_map, List.map_map]
  exact List.map_id _

lemma retAgg_lookup (rows : List RRow) (L E : String) :
    ((((retAgg rows).find? (fun r => decide (r.linha = L ∧ r.equipe = E))).map
        (fun r => r.qty)).getD 0)
      = ((rows.filter (fun r => decide ((r.linha, r.equipe) = (L, E)))).map
          (fun r => r.qty)).sum := by
  unfold retAgg
  rw [List.find?_map]
  have hfun : ((fun r : PRow => decide (r.linha = L ∧ r.equipe = E)) ∘
      (fun x : (String × String) × ℚ => (⟨x.1.1, x.1.2, x.2⟩ : PRow)))
        = fun x : (String × String) × ℚ => decide (x.1 = (L, E)) := by
    funext x
    simp [Function.comp, decide_eq_decide, Prod.ext_iff]
  rw [hfun, Option.map_map]
  have hfun2 : ((fun r : PRow => r.qty) ∘
      (fun x : (String × String) × ℚ => (⟨x.1.1, x.1.2, x.2⟩ : PRow)))
        = fun x : (String × String) × ℚ => x.2 := rfl
  rw [hfun2]
  exact aggBy_lookup keyLe (fun r : RRow => (r.linha, r.equipe)) (fun r => r.qty) rows (L, E)

lemma dfFinal_keys (pAgg rAgg : List PRow) (m : ℚ) :
    (dfFinal pAgg rAgg m).map (fun r => (r.linha, r.equipe))
      = pAgg.map (fun p => (p.linha, p.equipe)) := by
  unfold dfFinal
  rw [List.map_map]
  rfl

lemma dfFinal_ret_col (pRows : List PRow) (rRows : List RRow) (m : ℚ) :
    (dfFinal (prodAgg pRows) (retAgg rRows) m).map (fun r => r.m2Retido)
      = ((prodAgg pRows).map (fun p => (p.linha, p.equipe))).map
          (fun k => ((rRows.filter (fun r => decide ((r.linha, r.equipe) = k))).map
            (fun r => r.qty)).sum) := by
  unfold dfFinal
  rw [List.map_map, List.map_map]
  apply List.map_congr_left
  intro p _
  exact retAgg_lookup rRows p.linha p.equipe

lemma dfFinal_ret_total (pRows : List PRow) (rRows : List RRow) (m : ℚ) :
    ((dfFinal (prodAgg pRows) (retAgg rRows) m).map (fun r => r.m2Retido)).sum
      = ((rRows.filter (fun r =>
          decide ((r.linha, r.equipe) ∈ pRows.map (fun p => (p.linha, p.equipe))))).map
            (fun r => r.qty)).sum := by
  rw [dfFinal_ret_col, prodAgg_map_key]
  have hnd : (List.insertionSort keyLe ((pRows.map (fun r => (r.linha, r.equipe))).dedup)).Nodup :=
    (List.perm_insertionSort keyLe _).nodup_iff.mpr (List.nodup_dedup _)
  rw [sum_fiber rRows (fun r => (r.linha, r.equipe)) (fun r => r.qty) _ hnd]
  apply congrArg
  apply congrArg
  apply List.filter_congr
  intro r _
  have : ((r.linha, r.equipe) ∈
      List.insertionSort keyLe ((pRows.map (fun p => (p.linha, p.equipe))).dedup))
        ↔ (r.linha, r.equipe) ∈ pRows.map (fun p => (p.linha, p.equipe)) := by
    rw [(List.perm_insertionSort keyLe _).mem_iff, List.mem_dedup]
  exact decide_eq_decide.mpr this

end PipelineHelpers

section SortHelpers

lemma orderedInsert_append_last {α : Type} (r : α → α → Prop) [DecidableRel r] (a x : α)
    (s : List α) (h : r a x) :
    List.orderedInsert r a (s ++ [x]) = List.orderedInsert r a s ++ [x] := by
  induction s with
  | nil => simp [List.orderedInsert, h]
  | cons b t ih =>
    by_cases hb : r a b
    · simp [List.orderedInsert, hb]
    · simp [List.orderedInsert, hb, ih]

lemma insertionSort_append_last {α : Type} (r : α → α → Prop) [DecidableRel r] (l : List α)
    (x : α) (h : ∀ a ∈ l, r a x) :
    List.insertionSort r (l ++ [x]) = List.insertionSort r l ++ [x] := by
  induction l with
  | nil => simp [List.insertionSort]
  | cons a t ih =>
    have e1 : List.insertionSort r ((a :: t) ++ [x])
        = List.orderedInsert r a (List.insertionSort r (t ++ [x])) := rfl
    have e2 : List.insertionSort r (a :: t)
        = List.orderedInsert r a (List.insertionSort r t) := rfl
    rw [e1, e2, ih (fun b hb => h b (List.mem_cons_of_mem a hb)),
      orderedInsert_append_last r a x _ (h a (List.mem_cons_self a t))]

lemma adicionarLinhaGeral_eq {df : List FinalRow} {nome : String} {meta : ℚ}
    (h : ∀ r ∈ df, r.equipe ≠ "Média Geral")
    (hne : df.filter (fun r => decide (r.linha = nome)) ≠ []) :
    adicionarLinhaGeral df nome meta
      = List.insertionSort rowLe (df.filter (fun r => decide (r.linha = nome)))
        ++ [rowGeral (df.filter (fun r => decide (r.linha = nome))) nome meta] := by
  have hne' : ¬ (df.filter (fun r => decide (r.linha = nome))).isEmpty = true := by
    rw [List.isEmpty_iff]
    exact hne
  simp only [adicionarLinhaGeral]
  rw [if_neg hne']
  apply insertionSort_append_last
  intro a ha
  have hnm : a.equipe ≠ "Média Geral" := h a (List.mem_filter.mp ha).1
  unfold rowLe ordem rowGeral
  left
  simp [hnm]

lemma linha_of_mem_adicionarLinhaGeral {df : List FinalRow} {nome : String} {meta : ℚ}
    {x : FinalRow} (hx : x ∈ adicionarLinhaGeral df nome meta) : x.linha = nome := by
  simp only [adicionarLinhaGeral] at hx
  by_cases he : (df.filter (fun r => decide (r.linha = nome))).isEmpty = true
  · rw [if_pos he] at hx
    rw [List.isEmpty_iff.mp he] at hx
    simp at hx
  · rw [if_neg he] at hx
    have hm := (List.perm_insertionSort rowLe _).mem_iff.mp hx
    rcases List.mem_append.mp hm with hf | hg
    · exact of_decide_eq_true (List.mem_filter.mp hf).2
    · rw [List.mem_singleton.mp hg]
      rfl

end SortHelpers

section ResolverHelpers

lemma findSome?_congr {α β : Type} (l : List α) (f g : α → Option β)
    (h : ∀ a ∈ l, f a = g a) : l.findSome? f = l.findSome? g := by
  induction l with
  | nil => rfl
  | cons a t ih =>
    rw [List.findSome?_cons, List.findSome?_cons, h a (List.mem_cons_self a t),
      ih (fun b hb => h b (List.mem_cons_of_mem a hb))]

lemma mapaCols_self {cols : List String} (hnd : (cols.map normalizeCol).Nodup)
    {c : String} (hc : c ∈ cols) :
    mapaCols cols (normalizeCol c) = some c := by
  unfold mapaCols
  cases hfind : cols.reverse.find? (fun o => decide (normalizeCol o = normalizeCol c)) with
  | none =>
    exact absurd (by simp : decide (normalizeCol c = normalizeCol c) = true)
      (List.find?_eq_none.mp hfind c (List.mem_reverse.mpr hc))
  | some o =>
    have ho : o ∈ cols := List.mem_reverse.mp (List.mem_of_find?_eq_some hfind)
    have heq : normalizeCol o = normalizeCol c := by
      have hp := List.find?_some hfind
      simpa using hp
    rw [nodup_map_inj normalizeCol cols hnd o ho c hc heq]

lemma identificarColuna_eq_of_nodup {cols : List String}
    (hnd : (cols.map normalizeCol).Nodup) (keywords : List String) :
    identificarColuna cols keywords
      = keywords.findSome? (fun kw => cols.find? (fun c => strContains (normalizeCol c) kw)) := by
  rw [show identificarColuna cols keywords
    = keywords.findSome? (fun kw =>
        (((cols.map normalizeCol).find? (fun col => strContains col kw)).bind
          (mapaCols cols))) from rfl]
  apply findSome?_congr
  intro kw _
  rw [List.find?_map]
  have hcomp : ((fun col => strContains col kw) ∘ normalizeCol)
      = fun c => strContains (normalizeCol c) kw := rfl
  rw [hcomp]
  cases hf : cols.find? (fun c => strContains (normalizeCol c) kw) with
  | none => rfl
  | some c =>
    have hc : c ∈ cols := List.mem_of_find?_eq_some hf
    exact mapaCols_self hnd hc

end ResolverHelpers

/-- Claim C5: `limpar_numero` is total and never raises: null/NaN inputs give 0.0,
already-numeric inputs pass through as floats, strings are stripped of the
currency marker and whitespace, thousands-separator dots are removed and the
decimal comma becomes a dot before parsing (so "1.234,56" gives 1234.56), and
any unparsable input gives 0.0. -/
theorem c5_limpar_numero_total :
    limparNumero .null = 0 ∧ limparNumero .nan = 0
    ∧ (∀ z : ℤ, limparNumero (.int z) = (z : ℚ))
    ∧ (∀ q : ℚ, limparNumero (.float q) = q)
    ∧ limparNumero (.str "1.234,56") = 1234.56
    ∧ limparNumero (.str "R$ 1.234,56") = 1234.56
    ∧ limparNumero (.str "abc") = 0
    ∧ (∀ s : String, limparNumero (.str s) = (parsePyFloat (limparStr s)).getD 0) := by
  refine ⟨rfl, rfl, fun z => rfl, fun q => rfl, ?_, ?_, ?_, fun s => rfl⟩
  · have h1 : limparStr "1.234,56" = "1234.56" := by decide
    have h2 : parsePyFloatRaw "1234.56" = some (123456, 2) := by decide
    simp [limparNumero, parsePyFloat, h1, h2]
    norm_num
  · have h1 : limparStr "R$ 1.234,56" = "1234.56" := by decide
    have h2 : parsePyFloatRaw "1234.56" = some (123456, 2) := by decide
    simp [limparNumero, parsePyFloat, h1, h2]
    norm_num
  · have h1 : limparStr "abc" = "abc" := by decide
    have h2 : parsePyFloatRaw "abc" = none := by decide
    simp [limparNumero, parsePyFloat, h1, h2]

/-- Claim C6: `mapear_linha` is total on any string, null or numeric input and
never raises: it takes the first run of decimal digits of the stringified
identifier; 10 or 11 give "Linha 4 e 5", 12 or 13 give "Linha 6", any other
value or the absence of digits gives "Outros". -/
theorem c6_mapear_linha_total (v : RawVal) :
    (mapearLinha v = "Linha 4 e 5" ∨ mapearLinha v = "Linha 6" ∨ mapearLinha v = "Outros")
    ∧ (∀ n : ℕ, firstDigitRun (pyStr v) = some n →
        mapearLinha v = if n = 10 ∨ n = 11 then "Linha 4 e 5"
          else if n = 12 ∨ n = 13 then "Linha 6" else "Outros")
    ∧ (firstDigitRun (pyStr v) = none → mapearLinha v = "Outros") := by
  refine ⟨?_, ?_, ?_⟩
  · unfold mapearLinha
    cases firstDigitRun (pyStr v) with
    | none => exact Or.inr (Or.inr rfl)
    | some n =>
      by_cases h1 : n = 10 ∨ n = 11
      · exact Or.inl (by simp [h1])
      · by_cases h2 : n = 12 ∨ n = 13
        · exact Or.inr (Or.inl (by simp [h1, h2]))
        · exact Or.inr (Or.inr (by simp [h1, h2]))
  · intro n hn
    unfold mapearLinha
    rw [hn]
  · intro hn
    unfold mapearLinha
    rw [hn]

/-- Witness for C6 at the inputs "Forno 10" and null. -/
theorem c6_witness :
    mapearLinha (.str "Forno 10") = "Linha 4 e 5" ∧ mapearLinha .null = "Outros" := by
  constructor
  · have h := (c6_mapear_linha_total (.str "Forno 10")).2.1 10 (by decide)
    simpa using h
  · exact (c6_mapear_linha_total .null).2.2 (by decide)

/-- Claim C9: `limpar_numero` is idempotent on numeric input (NaN included) and
total on every string. -/
theorem c9_normalize_idempotent :
    (∀ v : RawVal, isNumericRV v →
      limparNumero (.float (limparNumero v)) = limparNumero v)
    ∧ (∀ s : String, ∃ q : ℚ, limparNumero (.str s) = q) := by
  constructor
  · intro v hv
    cases v with
    | null => exact absurd hv (by simp [isNumericRV])
    | nan => rfl
    | int z => rfl
    | float q => rfl
    | str s => exact absurd hv (by simp [isNumericRV])
  · exact fun s => ⟨_, rfl⟩

/-- Witness for C9 at the numeric input NaN. -/
theorem c9_witness :
    isNumericRV .nan ∧ limparNumero (.float (limparNumero .nan)) = limparNumero .nan :=
  ⟨trivial, c9_normalize_idempotent.1 .nan trivial⟩

/-- Claim C10: every row of the final summary table (and hence of its
spreadsheet export) has line "Linha 4 e 5" or "Linha 6"; rows classified
"Outros" never appear. -/
theorem c10_summary_lines_only (df : List FinalRow) (metaPct : ℚ) (row : FinalRow)
    (h : row ∈ dfTabelaFinal df metaPct) :
    (row.linha = "Linha 4 e 5" ∨ row.linha = "Linha 6") ∧ row.linha ≠ "Outros" := by
  have hl : row.linha = "Linha 4 e 5" ∨ row.linha = "Linha 6" := by
    unfold dfTabelaFinal at h
    rcases List.mem_append.mp h with h1 | h1
    · exact Or.inl (linha_of_mem_adicionarLinhaGeral h1)
    · exact Or.inr (linha_of_mem_adicionarLinhaGeral h1)
  refine ⟨hl, ?_⟩
  rcases hl with h2 | h2 <;> rw [h2] <;> decide

/-- Claim C7 counterexample: the resolver is NOT case-insensitive on the keyword
side (an upper-case fragment never matches, while the spec's policy does match),
and when two column names collide after lower-casing and trimming the LAST such
column is returned, not the first in table order as the claim states. -/
theorem c7_counterexample :
    (identificarColuna ["Turno"] ["TURNO"] = none
      ∧ resolveColumnSpec ["Turno"] ["TURNO"] = some "Turno")
    ∧ (identificarColuna ["Turno ", "turno"] ["turno"] = some "turno"
      ∧ resolveColumnSpec ["Turno ", "turno"] ["turno"] = some "Turno ") :=
  ⟨⟨by decide, by decide⟩, by decide, by decide⟩

/-- Claim C7 amended: when the lower-cased trimmed column names are pairwise
distinct, the resolver returns, for the earliest keyword fragment that matches
any column, the first column in table order whose lower-cased trimmed name
contains the fragment VERBATIM (call sites pass lower-case fragments, which is
what makes the matching case-insensitive in practice); no fragment matching any
column gives `none`.  The claim's scenario still holds. -/
theorem c7_amended (cols keywords : List String)
    (hnd : (cols.map normalizeCol).Nodup) :
    identificarColuna cols keywords
      = keywords.findSome? (fun kw => cols.find? (fun c => strContains (normalizeCol c) kw))
    ∧ identificarColuna ["Turno", "Produto"] ["equipe", "team", "turno"] = some "Turno" :=
  ⟨identificarColuna_eq_of_nodup hnd keywords, by decide⟩

/-- Witness for C7 at the claim's own scenario. -/
theorem c7_witness :
    ((["Turno", "Produto"] : List String).map normalizeCol).Nodup
    ∧ identificarColuna ["Turno", "Produto"] ["equipe", "team", "turno"]
        = (["equipe", "team", "turno"] : List String).findSome? (fun kw =>
            (["Turno", "Produto"] : List String).find?
              (fun c => strContains (normalizeCol c) kw)) := by
  have hnd : ((["Turno", "Produto"] : List String).map normalizeCol).Nodup := by decide
  exact ⟨hnd, (c7_amended ["Turno", "Produto"] ["equipe", "team", "turno"] hnd).1⟩

/-- Claim C3 counterexample: with a real team named "Média Geral" the `Ordem`
sort key pulls that team row to the end, so the team rows are no longer in
lexicographic order ("Zebra" comes out before "Média Geral", yet
"Zebra" ≤ "Média Geral" fails). -/
theorem c3_counterexample :
    (adicionarLinhaGeral cdf3 "Linha 6" 1).map (fun r => r.equipe)
      = ["Zebra", "Média Geral", "Média Geral"]
    ∧ ¬ (("Zebra" : String) ≤ "Média Geral") := by
  constructor
  · have hfil : cdf3.filter (fun r => decide (r.linha = "Linha 6")) = cdf3 := by decide
    simp only [adicionarLinhaGeral, hfil]
    rw [if_neg (by decide : ¬ (cdf3.isEmpty = true))]
    have hz : cdf3 ++ [rowGeral cdf3 "Linha 6" 1]
        = (⟨"Linha 6", "Zebra", 100, 1, 1, 0, .val 1⟩ : FinalRow)
          :: (⟨"Linha 6", "Média Geral", 200, 2, 2, 0, .val 1⟩ : FinalRow)
          :: [rowGeral cdf3 "Linha 6" 1] := rfl
    rw [hz]
    have h1 : rowLe (⟨"Linha 6", "Média Geral", 200, 2, 2, 0, .val 1⟩ : FinalRow)
        (rowGeral cdf3 "Linha 6" 1) := Or.inr ⟨rfl, le_refl _⟩
    have h2 : rowLe (⟨"Linha 6", "Zebra", 100, 1, 1, 0, .val 1⟩ : FinalRow)
        (⟨"Linha 6", "Média Geral", 200, 2, 2, 0, .val 1⟩ : FinalRow) :=
      Or.inl (by decide)
    have e0 : List.insertionSort rowLe [rowGeral cdf3 "Linha 6" 1]
        = [rowGeral cdf3 "Linha 6" 1] := rfl
    have e1 : List.insertionSort rowLe
        ((⟨"Linha 6", "Média Geral", 200, 2, 2, 0, .val 1⟩ : FinalRow)
          :: [rowGeral cdf3 "Linha 6" 1])
        = (⟨"Linha 6", "Média Geral", 200, 2, 2, 0, .val 1⟩ : FinalRow)
          :: [rowGeral cdf3 "Linha 6" 1] := by
      show List.orderedInsert rowLe _ (List.insertionSort rowLe [rowGeral cdf3 "Linha 6" 1]) = _
      rw [e0]
      exact List.orderedInsert_of_le rowLe _ h1
    show (List.insertionSort rowLe _).map (fun r => r.equipe) = _
    rw [show List.insertionSort rowLe
        ((⟨"Linha 6", "Zebra", 100, 1, 1, 0, .val 1⟩ : FinalRow)
          :: (⟨"Linha 6", "Média Geral", 200, 2, 2, 0, .val 1⟩ : FinalRow)
          :: [rowGeral cdf3 "Linha 6" 1])
      = List.orderedInsert rowLe (⟨"Linha 6", "Zebra", 100, 1, 1, 0, .val 1⟩ : FinalRow)
          (List.insertionSort rowLe
            ((⟨"Linha 6", "Média Geral", 200, 2, 2, 0, .val 1⟩ : FinalRow)
              :: [rowGeral cdf3 "Linha 6" 1])) from rfl, e1,
      List.orderedInsert_of_le rowLe _ h2]
    rfl
  · simp only [String.le_iff_toList_le]
    decide

/-- Claim C3 amended: provided no real team is literally named "Média Geral"
(the sentinel of the synthetic row), `adicionar_linha_geral` on a line with at
least one row returns the line's team rows sorted among themselves followed by
the synthetic overall row; the overall row's produced and retained quantities
are the sums over the team rows and its percentage is recomputed from those
sums (guarded by the positivity test), and the team rows are sorted
lexicographically by team name. -/
theorem c3_amended (df : List FinalRow) (nome : String) (metaPct : ℚ)
    (h : ∀ r ∈ df, r.equipe ≠ "Média Geral")
    (hne : df.filter (fun r => decide (r.linha = nome)) ≠ []) :
    (adicionarLinhaGeral df nome metaPct
        = List.insertionSort rowLe (df.filter (fun r => decide (r.linha = nome)))
          ++ [rowGeral (df.filter (fun r => decide (r.linha = nome))) nome metaPct])
    ∧ (rowGeral (df.filter (fun r => decide (r.linha = nome))) nome metaPct).m2Produzido
        = ((df.filter (fun r => decide (r.linha = nome))).map (fun r => r.m2Produzido)).sum
    ∧ (rowGeral (df.filter (fun r => decide (r.linha = nome))) nome metaPct).m2Retido
        = ((df.filter (fun r => decide (r.linha = nome))).map (fun r => r.m2Retido)).sum
    ∧ (rowGeral (df.filter (fun r => decide (r.linha = nome))) nome metaPct).pctRealizado
        = PFloat.val
            (if ((df.filter (fun r => decide (r.linha = nome))).map
                  (fun r => r.m2Produzido)).sum > 0
             then ((df.filter (fun r => decide (r.linha = nome))).map
                    (fun r => r.m2Retido)).sum
                  / ((df.filter (fun r => decide (r.linha = nome))).map
                      (fun r => r.m2Produzido)).sum * 100
             else 0)
    ∧ (rowGeral (df.filter (fun r => decide (r.linha = nome))) nome metaPct).equipe
        = "Média Geral"
    ∧ (List.insertionSort rowLe (df.filter (fun r => decide (r.linha = nome)))).Perm
        (df.filter (fun r => decide (r.linha = nome)))
    ∧ List.Sorted (fun a b : FinalRow => a.equipe ≤ b.equipe)
        (List.insertionSort rowLe (df.filter (fun r => decide (r.linha = nome)))) := by
  refine ⟨adicionarLinhaGeral_eq h hne, rfl, rfl, rfl, rfl,
    List.perm_insertionSort rowLe _, ?_⟩
  have hs := List.sorted_insertionSort rowLe (df.filter (fun r => decide (r.linha = nome)))
  refine List.Pairwise.imp_of_mem ?_ hs
  intro a b ha hb hab
  have ha' : a.equipe ≠ "Média Geral" :=
    h a (List.mem_filter.mp ((List.perm_insertionSort rowLe _).mem_iff.mp ha)).1
  have hb' : b.equipe ≠ "Média Geral" :=
    h b (List.mem_filter.mp ((List.perm_insertionSort rowLe _).mem_iff.mp hb)).1
  rcases hab with h1 | h1
  · exfalso
    unfold ordem at h1
    rw [if_neg ha', if_neg hb'] at h1
    exact absurd h1 (lt_irrefl 0)
  · exact h1.2

/-- Witness for C3 on a concrete two-team table. -/
theorem c3_witness :
    adicionarLinhaGeral wdf3 "Linha 6" 1
      = List.insertionSort rowLe (wdf3.filter (fun r => decide (r.linha = "Linha 6")))
        ++ [rowGeral (wdf3.filter (fun r => decide (r.linha = "Linha 6"))) "Linha 6" 1]
    ∧ List.Sorted (fun a b : FinalRow => a.equipe ≤ b.equipe)
        (List.insertionSort rowLe (wdf3.filter (fun r => decide (r.linha = "Linha 6")))) := by
  have h := c3_amended wdf3 "Linha 6" 1 (by decide) (by decide)
  exact ⟨h.1, h.2.2.2.2.2.2⟩

/-- Claim C2 counterexample: a (line, team) group whose produced quantity sums
to 0 (e.g. every metragem cell unparsable) but which has retained material gets
`% Realizado = (50 / 0) * 100`, an IEEE infinity - not 0 as the claim states
for every aggregate row. -/
theorem c2_counterexample :
    (dfFinal (prodAgg [⟨"Linha 4 e 5", "A", 0⟩])
        (retAgg [⟨"Linha 4 e 5", "A", 50, "Bolha"⟩]) (1/2)).map
      (fun r => (r.m2Produzido, r.pctRealizado)) = [((0 : ℚ), PFloat.inf)]
    ∧ PFloat.inf ≠ PFloat.val 0 := by
  constructor
  · norm_num [dfFinal, prodAgg, retAgg, aggBy, pctDiv]
  · decide

/-- Claim C2 amended: only the synthetic overall row is guarded - its
percentage is 0 whenever its produced total is 0 (or negative).  A team row of
the merged summary divides without a guard, so with produced quantity 0 its
percentage is NaN (when retained is 0) or a signed infinity (otherwise), never
a finite 0. -/
theorem c2_amended :
    (∀ (filt : List FinalRow) (nome : String) (metaPct : ℚ),
      (rowGeral filt nome metaPct).m2Produzido = 0 →
        (rowGeral filt nome metaPct).pctRealizado = PFloat.val 0)
    ∧ (∀ (pAgg rAgg : List PRow) (metaPct : ℚ) (row : FinalRow),
        row ∈ dfFinal pAgg rAgg metaPct → row.m2Produzido = 0 →
          row.pctRealizado
            = if row.m2Retido = 0 then PFloat.nan
              else if row.m2Retido > 0 then PFloat.inf else PFloat.ninf) := by
  constructor
  · intro filt nome metaPct h
    have h0 : (filt.map (fun r => r.m2Produzido)).sum = 0 := h
    show PFloat.val (if (filt.map (fun r => r.m2Produzido)).sum > 0 then _ else 0) = _
    rw [if_neg (by rw [h0]; exact lt_irrefl 0)]
  · intro pAgg rAgg metaPct row hrow h0
    rcases List.mem_map.mp hrow with ⟨p, _, rfl⟩
    have hq : p.qty = 0 := h0
    show pctDiv _ p.qty = _
    unfold pctDiv
    rw [if_pos hq]

/-- Witness for C2: the empty-line overall row (produced total 0) gets
percentage 0, and a concrete merged team row with produced 0 and retained 50
gets an infinity. -/
theorem c2_witness :
    (rowGeral [] "Linha 6" 1).m2Produzido = 0
    ∧ (rowGeral [] "Linha 6" 1).pctRealizado = PFloat.val 0
    ∧ (⟨"Linha 4 e 5", "A", 0, 50, 0 * ((0 : ℚ) / 100), 0 * ((0 : ℚ) / 100) - 50,
        pctDiv 50 0⟩ : FinalRow).pctRealizado = PFloat.inf := by
  refine ⟨rfl, c2_amended.1 [] "Linha 6" 1 rfl, ?_⟩
  have hmem : (⟨"Linha 4 e 5", "A", 0, 50, 0 * ((0 : ℚ) / 100), 0 * ((0 : ℚ) / 100) - 50,
      pctDiv 50 0⟩ : FinalRow)
        ∈ dfFinal [⟨"Linha 4 e 5", "A", 0⟩] [⟨"Linha 4 e 5", "A", 50⟩] 0 :=
    List.mem_singleton.mpr rfl
  have h := c2_amended.2 [⟨"Linha 4 e 5", "A", 0⟩] [⟨"Linha 4 e 5", "A", 50⟩] 0 _ hmem rfl
  rw [h]
  norm_num

/-- Claim C4: the summary left-joins retained onto production aggregates keyed
on (line, team): the summary's keys are exactly the production keys (so a pair
with retained rows but no production rows is absent), the summary's total
retained quantity is the sum over just those retained rows whose key occurs in
the production table, and a key with no retained rows shows retained 0. -/
theorem c4_left_join (pRows : List PRow) (rRows : List RRow) (metaPct : ℚ) :
    ((dfFinal (prodAgg pRows) (retAgg rRows) metaPct).map (fun r => (r.linha, r.equipe))
        = (prodAgg pRows).map (fun p => (p.linha, p.equipe)))
    ∧ (∀ l t : String,
        (l, t) ∈ (dfFinal (prodAgg pRows) (retAgg rRows) metaPct).map
            (fun r => (r.linha, r.equipe))
          ↔ (l, t) ∈ pRows.map (fun p => (p.linha, p.equipe)))
    ∧ (((dfFinal (prodAgg pRows) (retAgg rRows) metaPct).map (fun r => r.m2Retido)).sum
        = ((rRows.filter (fun r =>
            decide ((r.linha, r.equipe) ∈ pRows.map (fun p => (p.linha, p.equipe))))).map
              (fun r => r.qty)).sum)
    ∧ (∀ row ∈ dfFinal (prodAgg pRows) (retAgg rRows) metaPct,
        (∀ rr ∈ rRows, ¬ (rr.linha = row.linha ∧ rr.equipe = row.equipe)) →
          row.m2Retido = 0) := by
  refine ⟨dfFinal_keys _ _ _, ?_, dfFinal_ret_total _ _ _, ?_⟩
  · intro l t
    rw [dfFinal_keys, prodAgg_map_key, (List.perm_insertionSort keyLe _).mem_iff,
      List.mem_dedup]
  · intro row hrow hno
    rcases List.mem_map.mp hrow with ⟨p, _, rfl⟩
    show ((((retAgg rRows).find?
        (fun r => decide (r.linha = p.linha ∧ r.equipe = p.equipe))).map
          (fun r => r.qty)).getD 0) = 0
    rw [retAgg_lookup]
    have hnil : rRows.filter
        (fun r => decide ((r.linha, r.equipe) = (p.linha, p.equipe))) = [] := by
      rw [List.filter_eq_nil_iff]
      intro a ha
      simp only [decide_eq_true_eq, Prod.mk.injEq]
      exact fun hc => hno a ha ⟨hc.1, hc.2⟩
    rw [hnil]
    rfl

/-- Witness for C4: a production-only key shows retained quantity 0. -/
theorem c4_witness :
    (dfFinal (prodAgg [⟨"Linha 4 e 5", "A", 100⟩]) (retAgg []) 1).map
      (fun r => r.m2Retido) = [0] := by
  have hmem : ∀ row ∈ dfFinal (prodAgg [⟨"Linha 4 e 5", "A", 100⟩]) (retAgg []) 1,
      row.m2Retido = 0 := fun row hrow =>
    (c4_left_join [⟨"Linha 4 e 5", "A", 100⟩] [] 1).2.2.2 row hrow
      (fun rr hrr => absurd hrr (List.not_mem_nil rr))
  rw [List.map_congr_left hmem]
  rfl

/-- Claim C1 counterexample: with reason "Bolha" excluded, the retained table
feeding the summary is empty, yet the reason drill-down (computed from the
unfiltered table) still aggregates the excluded row (50 m², 1 occurrence); and
for an excluded row whose (line, team) key has no production rows, the
summary's total retained quantity decreases by 0, not by the row's quantity 50. -/
theorem c1_counterexample :
    dfRetFiltrado [⟨"Linha 4 e 5", "A", 50, "Bolha"⟩] ["Bolha"] = []
    ∧ specFinal [⟨"Linha 4 e 5", "A", 100⟩] [⟨"Linha 4 e 5", "A", 50, "Bolha"⟩] "Bolha"
        = [("A", 50, 1)]
    ∧ ((dfFinal (prodAgg [⟨"Linha 4 e 5", "A", 100⟩])
          (retAgg [⟨"Linha 4 e 5", "B", 50, "Bolha"⟩]) 1).map (fun r => r.m2Retido)).sum
        - ((dfFinal (prodAgg [⟨"Linha 4 e 5", "A", 100⟩])
            (retAgg (dfRetFiltrado [⟨"Linha 4 e 5", "B", 50, "Bolha"⟩] ["Bolha"])) 1).map
              (fun r => r.m2Retido)).sum = 0
    ∧ ((([⟨"Linha 4 e 5", "B", 50, "Bolha"⟩] : List RRow).filter
        (fun r => decide (r.motivo ∈ (["Bolha"] : List String)))).map
          (fun r => r.qty)).sum = 50 := by
  refine ⟨by decide, ?_, ?_, by norm_num⟩
  · norm_num [specFinal, specAgg, specCount, todasEquipes, aggBy, dfSpec]
  · norm_num [dfFinal, prodAgg, retAgg, aggBy, dfRetFiltrado,
      show (("B" : String) = "A") = False from by decide]

lemma decide_and_comm (p q : Prop) [Decidable p] [Decidable q] :
    decide (p ∧ q) = (decide q && decide p) := by
  by_cases hp : p <;> by_cases hq : q <;> simp [hp, hq]

/-- Claim C1 amended: excluding reasons removes their rows from the summary
aggregation, and the summary's total retained quantity decreases by exactly the
sum of the excluded rows' quantities AMONG the rows whose (line, team) key
occurs in the production table (rows with unmatched keys never entered the
left-joined summary total).  The reason drill-down, in contrast, is computed
from the unfiltered retained table: its per-team quantities and counts sum over
all rows with the selected reason, exclusion list notwithstanding. -/
theorem c1_amended (pRows : List PRow) (rRows : List RRow) (excl : List String)
    (metaPct : ℚ) (alvo : String) :
    ((dfFinal (prodAgg pRows) (retAgg rRows) metaPct).map (fun r => r.m2Retido)).sum
      - ((dfFinal (prodAgg pRows) (retAgg (dfRetFiltrado rRows excl)) metaPct).map
          (fun r => r.m2Retido)).sum
      = ((rRows.filter (fun r => decide (r.motivo ∈ excl
          ∧ (r.linha, r.equipe) ∈ pRows.map (fun p => (p.linha, p.equipe))))).map
            (fun r => r.qty)).sum
    ∧ specFinal pRows rRows alvo
      = (todasEquipes pRows).map (fun e =>
          (e, ((rRows.filter (fun r => decide (r.motivo = alvo ∧ r.equipe = e))).map
                (fun r => r.qty)).sum,
              (rRows.filter (fun r => decide (r.motivo = alvo ∧ r.equipe = e))).length)) := by
  constructor
  · rw [dfFinal_ret_total, dfFinal_ret_total]
    unfold dfRetFiltrado
    rw [List.filter_filter]
    have hsplit := sum_filter_split rRows
      (fun r => decide ((r.linha, r.equipe) ∈ pRows.map (fun p => (p.linha, p.equipe))))
      (fun r => decide (r.motivo ∈ excl)) (fun r => r.qty)
    rw [hsplit]
    have hC : rRows.filter (fun r =>
        decide ((r.linha, r.equipe) ∈ pRows.map (fun p => (p.linha, p.equipe)))
          && decide (r.motivo ∉ excl))
        = rRows.filter (fun r =>
            decide ((r.linha, r.equipe) ∈ pRows.map (fun p => (p.linha, p.equipe)))
              && !decide (r.motivo ∈ excl)) :=
      List.filter_congr (fun r _ => by rw [decide_not])
    have hD : rRows.filter (fun r => decide (r.motivo ∈ excl
        ∧ (r.linha, r.equipe) ∈ pRows.map (fun p => (p.linha, p.equipe))))
        = rRows.filter (fun r =>
            decide ((r.linha, r.equipe) ∈ pRows.map (fun p => (p.linha, p.equipe)))
              && decide (r.motivo ∈ excl)) :=
      List.filter_congr (fun r _ => decide_and_comm _ _)
    rw [hC, hD]
    ring
  · unfold specFinal
    apply List.map_congr_left
    intro e _
    have h1 : (((specAgg rRows alvo).find? (fun p => decide (p.1 = e))).map
        (fun p => p.2)).getD 0
          = ((rRows.filter (fun r => decide (r.motivo = alvo ∧ r.equipe = e))).map
              (fun r => r.qty)).sum := by
      unfold specAgg
      rw [aggBy_lookup]
      unfold dfSpec
      rw [List.filter_filter]
      apply congrArg
      apply congrArg
      exact List.filter_congr (fun r _ => (decide_and_comm _ _).symm)
    have h2 : (((specCount rRows alvo).find? (fun p => decide (p.1 = e))).map
        (fun p => p.2)).getD 0
          = (rRows.filter (fun r => decide (r.motivo = alvo ∧ r.equipe = e))).length := by
      unfold specCount
      rw [aggBy_lookup]
      unfold dfSpec
      rw [List.filter_filter, sum_map_one]
      apply congrArg
      exact List.filter_congr (fun r _ => (decide_and_comm _ _).symm)
    rw [h1, h2]

lemma mem_ite_nil_append {a m : String} {c : Prop} [Decidable c] {l : List String} :
    (a ∈ (if c then [] else [m]) ++ l) ↔ ((¬ c ∧ a = m) ∨ a ∈ l) := by
  by_cases h : c <;> simp [h]

lemma mem_ite_nil {a m : String} {c : Prop} [Decidable c] :
    (a ∈ (if c then ([] : List String) else [m])) ↔ (¬ c ∧ a = m) := by
  by_cases h : c <;> simp [h]

lemma ite_nil_append_eq_nil {c : Prop} [Decidable c] {m : String} {l : List String} :
    ((if c then [] else [m]) ++ l) = [] ↔ (c ∧ l = []) := by
  by_cases h : c <;> simp [h]

lemma ite_nil_eq_nil {c : Prop} [Decidable c] {m : String} :
    ((if c then ([] : List String) else [m])) = [] ↔ c := by
  by_cases h : c <;> simp [h]

/-- Claim C8: one human-readable message naming the table and field is
collected for every unresolved required column across both tables (and only
for those); the batch is empty exactly when all seven required columns
resolve; and a non-empty batch makes the session stop with exactly that batch,
producing no summary table. -/
theorem c8_binding_errors (prod ret : RawTable) :
    (errosMapeamento prod.cols ret.cols = [] ↔
      ((identificarColuna prod.cols ["equipe", "team", "turno"]).isSome
        ∧ (identificarColuna prod.cols ["forno", "linha", "maq"]).isSome
        ∧ (identificarColuna prod.cols ["metragem", "m2", "prod"]).isSome
        ∧ (identificarColuna ret.cols ["motivo", "defeito", "causa"]).isSome
        ∧ (identificarColuna ret.cols ["m²", "m2", "metragem", "quant"]).isSome
        ∧ (identificarColuna ret.cols ["equipe", "team", "turno"]).isSome
        ∧ (identificarColuna ret.cols ["forno", "linha", "maq"]).isSome))
    ∧ (identificarColuna prod.cols ["equipe", "team", "turno"] = none ↔
        "Arquivo Produção: Coluna de 'Equipe' não encontrada."
          ∈ errosMapeamento prod.cols ret.cols)
    ∧ (identificarColuna prod.cols ["forno", "linha", "maq"] = none ↔
        "Arquivo Produção: Coluna de 'Forno' ou 'Linha' não encontrada."
          ∈ errosMapeamento prod.cols ret.cols)
    ∧ (identificarColuna prod.cols ["metragem", "m2", "prod"] = none ↔
        "Arquivo Produção: Coluna de 'Metragem' ou 'Produção' não encontrada."
          ∈ errosMapeamento prod.cols ret.cols)
    ∧ (identificarColuna ret.cols ["motivo", "defeito", "causa"] = none ↔
        "Arquivo Retidos: Coluna de 'Motivo' não encontrada."
          ∈ errosMapeamento prod.cols ret.cols)
    ∧ (identificarColuna ret.cols ["m²", "m2", "metragem", "quant"] = none ↔
        "Arquivo Retidos: Coluna de 'M2' ou 'Metragem' não encontrada."
          ∈ errosMapeamento prod.cols ret.cols)
    ∧ (identificarColuna ret.cols ["equipe", "team", "turno"] = none ↔
        "Arquivo Retidos: Coluna de 'Equipe' não encontrada."
          ∈ errosMapeamento prod.cols ret.cols)
    ∧ (identificarColuna ret.cols ["forno", "linha", "maq"] = none ↔
        "Arquivo Retidos: Coluna de 'Forno' ou 'Linha' não encontrada."
          ∈ errosMapeamento prod.cols ret.cols)
    ∧ (∀ (metaPct : ℚ) (excl : List String),
        errosMapeamento prod.cols ret.cols ≠ [] →
          processar prod ret metaPct excl
            = Except.error (errosMapeamento prod.cols ret.cols)) := by
  have hproc : ∀ (metaPct : ℚ) (excl : List String),
      errosMapeamento prod.cols ret.cols ≠ [] →
        processar prod ret metaPct excl
          = Except.error (errosMapeamento prod.cols ret.cols) := by
    intro metaPct excl hne
    simp only [processar]
    rw [if_neg (fun hc => hne (List.isEmpty_iff.mp hc))]
  refine ⟨?_, ?_, ?_, ?_, ?_, ?_, ?_, ?_, hproc⟩
  · simp [errosMapeamento, ite_nil_append_eq_nil, ite_nil_eq_nil,
      Option.ne_none_iff_isSome]
  all_goals simp [errosMapeamento, mem_ite_nil_append, mem_ite_nil,
    Option.not_isSome_iff_eq_none]

/-- Witness for C8: a production table with no recognisable column makes the
session stop with the complete three-message batch for that table. -/
theorem c8_witness :
    processar ⟨["Foo"], []⟩ ⟨["Motivo", "M2", "Equipe", "Forno"], []⟩ 1 []
      = Except.error
          ["Arquivo Produção: Coluna de 'Equipe' não encontrada.",
           "Arquivo Produção: Coluna de 'Forno' ou 'Linha' não encontrada.",
           "Arquivo Produção: Coluna de 'Metragem' ou 'Produção' não encontrada."] := by
  have h := (c8_binding_errors ⟨["Foo"], []⟩ ⟨["Motivo", "M2", "Equipe", "Forno"], []⟩).2.2.2.2.2.2.2.2
    1 [] (by decide)
  rw [h]
  rw [show errosMapeamento ["Foo"] ["Motivo", "M2", "Equipe", "Forno"]
    = ["Arquivo Produção: Coluna de 'Equipe' não encontrada.",
       "Arquivo Produção: Coluna de 'Forno' ou 'Linha' não encontrada.",
       "Arquivo Produção: Coluna de 'Metragem' ou 'Produção' não encontrada."] from by decide]

/-- Witness for C10 at a one-row table on "Linha 4 e 5". -/
theorem c10_witness :
    ((⟨"Linha 4 e 5", "A", 100, 0, 1, 1, .val 0⟩ : FinalRow).linha = "Linha 4 e 5"
      ∨ (⟨"Linha 4 e 5", "A", 100, 0, 1, 1, .val 0⟩ : FinalRow).linha = "Linha 6")
    ∧ (⟨"Linha 4 e 5", "A", 100, 0, 1, 1, .val 0⟩ : FinalRow).linha ≠ "Outros" := by
  apply c10_summary_lines_only [⟨"Linha 4 e 5", "A", 100, 0, 1, 1, .val 0⟩] 1
  unfold dfTabelaFinal
  apply List.mem_append_left
  have hfil : ([⟨"Linha 4 e 5", "A", 100, 0, 1, 1, .val 0⟩] : List FinalRow).filter
      (fun r => decide (r.linha = "Linha 4 e 5"))
        = [⟨"Linha 4 e 5", "A", 100, 0, 1, 1, .val 0⟩] := by decide
  simp only [adicionarLinhaGeral, hfil]
  rw [if_neg (by decide :
    ¬ (([⟨"Linha 4 e 5", "A", 100, 0, 1, 1, .val 0⟩] : List FinalRow).isEmpty = true))]
  exact (List.perm_insertionSort rowLe _).mem_iff.mpr
    (List.mem_append_left _ (List.mem_singleton_self _))
